import Mathlib

/-!
Verification development for the `tiingo_data_pull` repository: a shallow
embedding, in Lean, of the data model and the operations of the incremental
sync pipeline (Tiingo price fetch, Notion record store, Google Drive upload),
together with theorems settling the specification claims.

Conventions of the embedding:
* Python exceptions become the `PyErr` error type of an `Except` result.
* Python `float` values in price payloads are modelled as `Rat` (the claims
  under study concern data flow and defaulting, not floating-point rounding).
* Python `datetime.date` is a year/month/day triple compared lexicographically,
  exactly as Python compares dates.
* Remote services are modelled by environments describing their responses, and
  side effects are collected in explicit effect lists.
-/

/-- Python exception classes that the embedded code can raise. -/
inductive PyErr where
  | valueError
  | typeError
  | fileNotFoundError
  | runtimeError
  | apiError
deriving DecidableEq, Repr

/-- A calendar date as Python's `datetime.date` carries it. -/
structure PyDate where
  year : Nat
  month : Nat
  day : Nat
deriving DecidableEq, Repr

/-- Python's `date` ordering: lexicographic on (year, month, day). -/
def PyDate.dle (a b : PyDate) : Prop :=
  a.year < b.year ∨
    (a.year = b.year ∧ (a.month < b.month ∨ (a.month = b.month ∧ a.day ≤ b.day)))

instance (a b : PyDate) : Decidable (a.dle b) := by
  unfold PyDate.dle; infer_instance

/-- Zero-pad a numeral to a given width, as `%04d`/`%02d` formatting does. -/
def padNat (width n : Nat) : String :=
  let s := toString n
  String.mk (List.replicate (width - s.length) '0') ++ s

/-- `date.isoformat()`: the `YYYY-MM-DD` rendering of a date. -/
def PyDate.isoformat (d : PyDate) : String :=
  padNat 4 d.year ++ "-" ++ padNat 2 d.month ++ "-" ++ padNat 2 d.day

/-- A JSON value as it can appear in a Tiingo price payload entry: JSON
`null`, a JSON number, or a string holding a hyphenated ISO-8601 date
(the only string shape the claims under study involve). -/
inductive JVal where
  | null
  | num (q : Rat)
  | dstr (d : PyDate)
deriving DecidableEq, Repr

/-- One JSON object of the Tiingo response array: an association list from
keys to values, looked up as Python `dict.get` does. -/
abbrev Payload := List (String × JVal)

/-- `payload.get(key)` before Python collapses JSON `null` to `None`:
the raw stored value, if the key is present. -/
def Payload.lookupKey (p : Payload) (k : String) : Option JVal :=
  (p.find? (fun e => e.1 == k)).map (fun e => e.2)

/-- `float(payload.get(key, 0.0))` for the numeric price fields: a missing
key defaults to `0.0`; a JSON number converts to itself; `float(None)`
raises `TypeError`; `float` of a hyphenated date string raises
`ValueError` (not a valid float literal). -/
def Payload.numField (p : Payload) (k : String) : Except PyErr Rat :=
  match p.lookupKey k with
  | none => .ok 0
  | some .null => .error .typeError
  | some (.num q) => .ok q
  | some (.dstr _) => .error .valueError

/-- `float(adj_close_val) if (adj_close_val := payload.get("adjClose")) is not
None else None`: absent key and JSON `null` both give `None`. -/
def Payload.adjCloseField (p : Payload) : Except PyErr (Option Rat) :=
  match p.lookupKey "adjClose" with
  | none => .ok none
  | some .null => .ok none
  | some (.num q) => .ok (some q)
  | some (.dstr _) => .error .valueError

/-- One trading day of price data (`models/price_bar.py`, class `PriceBar`).
The Python attribute `open` is a Lean keyword and is embedded as `open_`. -/
structure PriceBar where
  ticker : String
  date : PyDate
  open_ : Rat
  close : Rat
  high : Rat
  low : Rat
  volume : Rat
  adj_close : Option Rat := none
deriving DecidableEq, Repr

/-- `PriceBar.from_tiingo_payload`: `payload.get("date")` yields `None` both
when the key is absent and when it holds JSON `null`, raising `ValueError`;
`datetime.fromisoformat` of a number raises `TypeError`; then the numeric
fields are converted in the order the constructor call evaluates them. -/
def PriceBar.from_tiingo_payload (ticker : String) (payload : Payload) :
    Except PyErr PriceBar := do
  let d ← (match payload.lookupKey "date" with
    | none => .error .valueError
    | some .null => .error .valueError
    | some (.num _) => .error .typeError
    | some (.dstr d) => .ok d : Except PyErr PyDate)
  let o ← payload.numField "open"
  let c ← payload.numField "close"
  let h ← payload.numField "high"
  let l ← payload.numField "low"
  let v ← payload.numField "volume"
  let ac ← payload.adjCloseField
  .ok { ticker := ticker, date := d, open_ := o, close := c, high := h,
        low := l, volume := v, adj_close := ac }

example :
    PriceBar.from_tiingo_payload "AAPL" [("date", .dstr ⟨2024, 1, 2⟩)] =
      .ok { ticker := "AAPL", date := ⟨2024, 1, 2⟩, open_ := 0, close := 0,
            high := 0, low := 0, volume := 0, adj_close := none } := by
  rfl

example :
    PriceBar.from_tiingo_payload "AAPL"
      [("date", .dstr ⟨2024, 1, 2⟩), ("open", .null)] = .error .typeError := by
  rfl

example : (⟨2024, 1, 2⟩ : PyDate).isoformat = "2024-01-02" := by decide

/-! ## Date ordering facts used by the sort -/

theorem PyDate.dle_total (a b : PyDate) : a.dle b ∨ b.dle a := by
  unfold PyDate.dle; omega

theorem PyDate.dle_trans {a b c : PyDate} (hab : a.dle b) (hbc : b.dle c) :
    a.dle c := by
  unfold PyDate.dle at *; omega

theorem PyDate.dle_refl (a : PyDate) : a.dle a := by
  unfold PyDate.dle; omega

theorem PyDate.not_dle {a b : PyDate} (h : ¬ a.dle b) : b.dle a :=
  (PyDate.dle_total a b).resolve_left h

/-! ## `list.sort(key=lambda item: item.date)`

Python's `list.sort` is a stable sort; a stable sort's output is uniquely
determined by the key ordering and the input order, so the embedding uses a
stable insertion sort on the date key. -/

/-- The comparison `list.sort(key=lambda item: item.date)` sorts by. -/
def dateLeBar (a b : PriceBar) : Prop := a.date.dle b.date

instance : DecidableRel dateLeBar := fun a b => by
  unfold dateLeBar; infer_instance

instance : IsTotal PriceBar dateLeBar :=
  ⟨fun a b => PyDate.dle_total a.date b.date⟩

instance : IsTrans PriceBar dateLeBar :=
  ⟨fun _ _ _ hab hbc => PyDate.dle_trans hab hbc⟩

instance : IsRefl PriceBar dateLeBar := ⟨fun a => PyDate.dle_refl a.date⟩

/-- Stable sort of price bars ascending by `date`, the effect of
`prices.sort(key=lambda item: item.date)`. -/
def sortByDate (l : List PriceBar) : List PriceBar :=
  List.insertionSort dateLeBar l

/-- `TiingoClient.fetch_price_history`, after transport succeeded: the parsed
JSON array is mapped through `PriceBar.from_tiingo_payload` (any entry's
failure propagates) and the resulting list is sorted ascending by date. -/
def fetch_price_history (ticker : String) (payload : List Payload) :
    Except PyErr (List PriceBar) := do
  let prices ← payload.mapM (fun item => PriceBar.from_tiingo_payload ticker item)
  .ok (sortByDate prices)

/-! ## `utils/batching.py`: `chunked` -/

/-- The batch-accumulation loop of `chunked`: append each item to the current
batch, yield the batch when it reaches `size` items, and flush a final
nonempty partial batch after the input ends. `batch` holds the pending items
in reverse append order. -/
def chunkAux (size : Nat) : List α → List α → List (List α)
  | [], batch => if batch.isEmpty then [] else [batch.reverse]
  | x :: xs, batch =>
    if (x :: batch).length = size then (x :: batch).reverse :: chunkAux size xs []
    else chunkAux size xs (x :: batch)

/-- `chunked(iterable, size)`: raises `ValueError` when `size < 1`, else
yields the items in groups of `size`, the last possibly shorter. -/
def chunked (l : List α) (size : Nat) : Except PyErr (List (List α)) :=
  if size < 1 then .error .valueError else .ok (chunkAux size l [])

example : chunked [1, 2, 3, 4, 5] 2 = .ok [[1, 2], [3, 4], [5]] := by rfl
example : chunked ([] : List Nat) 3 = .ok [] := by rfl
example : chunked [1, 2] 0 = .error .valueError := by rfl

/-! ## `TiingoToNotionPipeline._filter_new_prices`

The record store's answer for a ticker is the set of ISO date strings already
present; Python membership `price.date.isoformat() not in existing_dates` is
embedded as list membership in the materialised set. -/

/-- The per-ticker list comprehension
`[price for price in prices if price.date.isoformat() not in existing_dates]`. -/
def filterTickerPrices (existingDates : List String) (prices : List PriceBar) :
    List PriceBar :=
  prices.filter (fun price => ¬ existingDates.contains price.date.isoformat)

/-- `_filter_new_prices`: for each ticker of the fetched mapping (in mapping
order), query the existing dates and keep only the bars whose ISO date is
absent from the answer. `existing` is the record-store environment: the set
returned by `query_existing_dates` for each ticker. -/
def filter_new_prices (existing : String → List String)
    (prices_by_ticker : List (String × List PriceBar)) :
    List (String × List PriceBar) :=
  prices_by_ticker.map (fun e => (e.1, filterTickerPrices (existing e.1) e.2))

/-! ## Record-store pagination (`query_existing_dates` / `fetch_existing_dates`)

A remote query response is modelled by the date value the client's
`_extract_date` helper finds in each returned page (or `none` when the page
is malformed) plus the `has_more` flag. The `next_cursor` value only feeds
the next request's payload and never influences the control flow, so it is
not modelled. The server is an oracle: the list of responses it would give
to the successive page requests. -/

structure NotionQueryResponse where
  results : List (Option String)
  has_more : Bool
deriving DecidableEq, Repr

/-- `set.add`, on a set materialised as a duplicate-free list. -/
def setInsert (s : List String) (a : String) : List String :=
  if s.contains a then s else s ++ [a]

/-- The `for page in results: if date_value: seen_dates.add(date_value)` body:
missing dates are skipped, and so are empty strings (Python truthiness). -/
def addPageDates (seen : List String) (results : List (Option String)) :
    List String :=
  results.foldl
    (fun acc o => match o with
      | some d => if d = "" then acc else setInsert acc d
      | none => acc)
    seen

/-- The `while has_more` loop of the integrations-module
`NotionClient.query_existing_dates`, the record-store query the pipeline
uses. It issues one page request per iteration and stops only when a
response reports `has_more` false. The result carries the accumulated set
and the number of page requests issued; `none` means the loop was still
requesting pages when the supplied response oracle ran out. -/
def query_existing_dates_loop :
    List NotionQueryResponse → List String → Option (List String × Nat)
  | [], _ => none
  | r :: rest, seen =>
    let seen' := addPageDates seen r.results
    if r.has_more then
      match query_existing_dates_loop rest seen' with
      | none => none
      | some (dates, n) => some (dates, n + 1)
    else some (seen', 1)

/-- `NotionClient.query_existing_dates` (integrations module), run against a
response oracle, starting from the empty seen-set. -/
def query_existing_dates (responses : List NotionQueryResponse) :
    Option (List String × Nat) :=
  query_existing_dates_loop responses []

/-- The `while has_more and pages_fetched < self._max_pages` loop of the
clients-module `NotionClient.fetch_existing_dates`: same accumulation, but
the page counter caps the number of requests. -/
def fetch_existing_dates_loop (maxPages : Nat) :
    List NotionQueryResponse → Bool → Nat → List String →
      Option (List String × Nat)
  | responses, hasMore, pages, seen =>
    if hasMore ∧ pages < maxPages then
      match responses with
      | [] => none
      | r :: rest =>
        fetch_existing_dates_loop maxPages rest r.has_more (pages + 1)
          (addPageDates seen r.results)
    else some (seen, pages)

/-- `NotionClient.fetch_existing_dates` (clients module): `has_more` starts
true, `pages_fetched` starts at zero, the seen-set starts empty. -/
def fetch_existing_dates (maxPages : Nat)
    (responses : List NotionQueryResponse) : Option (List String × Nat) :=
  fetch_existing_dates_loop maxPages responses true 0 []

/-- The `max_pages` default of the clients-module `NotionClient.__init__`,
the only pagination cap configured anywhere in the repository. -/
def defaultMaxPages : Nat := 4

/-! ## Object-storage uploads (`clients/drive_client.py`,
`integrations/google_drive.py`) -/

/-- Observable actions of a Drive upload call, in the order they happen. -/
inductive DriveEffect where
  | openFile (path : String)
  | listQuery (name : String) (folder : String)
  | createObject (name : String) (parents : List String)
  | updateObject (fileId : String)
deriving DecidableEq, Repr

/-- Environment for a Drive upload: the local filesystem and the service's
search/create answers. File paths double as object names (the embedding
keeps the whole path string as the name). -/
structure DriveEnv where
  fileExists : String → Bool
  existingFileId : String → String → Option String
  uploadedId : String

namespace DriveClient

/-- `GoogleDriveClient.upload_json` (clients module, the client the pipeline
holds): builds a `MediaFileUpload` — which opens the local file, so a
missing file surfaces as `FileNotFoundError` there — and then issues the
`files().create` request with `parents = [folder_id]` unconditionally.
There is no validation of `folder_id` and no pre-check of the file. -/
def upload_json (env : DriveEnv) (folderId : String) (filePath : String) :
    Except PyErr String × List DriveEffect :=
  if env.fileExists filePath then
    (.ok env.uploadedId,
      [.openFile filePath, .createObject filePath [folderId]])
  else
    (.error .fileNotFoundError, [.openFile filePath])

end DriveClient

namespace GoogleDriveIntegration

/-- `upload_json` (integrations module): validates the folder identifier and
the local file's existence before touching credentials or the network, then
searches for an object of the same name and updates it, or creates a new
one. -/
def upload_json (env : DriveEnv) (filePath : String) (folderId : String) :
    Except PyErr String × List DriveEffect :=
  if folderId = "" then (.error .runtimeError, [])
  else if ¬ env.fileExists filePath then (.error .fileNotFoundError, [])
  else
    match env.existingFileId filePath folderId with
    | some fid =>
      (.ok env.uploadedId,
        [.openFile filePath, .listQuery filePath folderId, .updateObject fid])
    | none =>
      (.ok env.uploadedId,
        [.openFile filePath, .listQuery filePath folderId,
          .createObject filePath [folderId]])

end GoogleDriveIntegration

/-! ## `TiingoClient.fetch_price_history_bulk`

The thread pool fan-out is abstracted to its observable contract: every
submitted future is resolved through `future.result()`, which re-raises the
first failure encountered, and on full success the results dictionary maps
each submitted ticker to its fetched list. The completion order only
permutes dictionary insertion order, which no claim observes, so the
embedding resolves futures in submission order. -/

def fetch_price_history_bulk (fetch : String → Except PyErr (List PriceBar)) :
    List String → Except PyErr (List (String × List PriceBar))
  | [] => .ok []
  | t :: ts => do
    let bars ← fetch t
    let rest ← fetch_price_history_bulk fetch ts
    .ok ((t, bars) :: rest)

/-! ## `_ThreadLocalSessionProvider`

Sessions are identified by allocation number: every execution of
`requests.Session()` — the default factory, and the constructor used by
`_clone_session` — returns a fresh object, modelled as the next allocation
id. `threading.local` is the per-thread store: a map from thread id to the
session stored by that thread. A bulk fetch is a trace of `get()` calls,
one per price fetch, tagged with the calling worker thread's id. -/

structure ProviderState where
  perThread : Nat → Option Nat
  nextId : Nat

def ProviderState.init : ProviderState := ⟨fun _ => none, 0⟩

/-- `getattr(self._thread_local, "session", None)` for a given thread. -/
def ProviderState.stored (s : ProviderState) (tid : Nat) : Option Nat :=
  s.perThread tid

/-- `_ThreadLocalSessionProvider.get` as executed by thread `tid`: return the
session already stored for this thread, or build a fresh one (a new
allocation) and store it for this thread. -/
def providerGet (s : ProviderState) (tid : Nat) : Nat × ProviderState :=
  match s.stored tid with
  | some sid => (sid, s)
  | none =>
    (s.nextId,
      ⟨fun t => if t = tid then some s.nextId else s.perThread t, s.nextId + 1⟩)

/-- Run a trace of `get()` calls (each entry the calling thread's id),
collecting each call's returned session id. Any concurrent interleaving of
the workers' calls is some such trace. -/
def runProvider : ProviderState → List Nat → List (Nat × Nat) × ProviderState
  | s, [] => ([], s)
  | s, tid :: rest =>
    let (sid, s') := providerGet s tid
    let (outs, sF) := runProvider s' rest
    ((tid, sid) :: outs, sF)

/-! ## The sync orchestrator (`services/pipeline.py`, `TiingoToNotionPipeline`)

The pipeline holds the integrations-module `NotionClient` and the
clients-module `GoogleDriveClient`. Its environment fixes the responses of
the external services for the run: the bars the bulk fetch returns per
ticker, the existing-date set the record store reports per ticker, the
outcome of each `pages.create` row submission, and the export path the
timestamped file writer produces for each batch position. The fetch, query,
file-write and upload collaborators are taken as succeeding — the claims
settled against this model concern which calls occur and how row-creation
failures propagate, not transport failures of the other stages. -/

structure SyncEnv where
  fetch : String → List PriceBar
  existing : String → List String
  rowCreate : PriceBar → Except PyErr String
  pathFor : Nat → String

/-- Observable side effects of a sync run, in program order. -/
inductive SyncEffect where
  | createRow (ticker : String) (dateIso : String) (succeeded : Bool)
  | fileWrite (path : String)
  | driveUpload (path : String)
deriving DecidableEq, Repr

/-- One row submission inside `create_price_rows`: `asyncio.gather(...,
return_exceptions=True)` hands back either the created page (its id) or the
exception object, so a failed row contributes no id, only a logged warning
— it never raises. -/
def createRowStep (rowCreate : PriceBar → Except PyErr String)
    (acc : List String × List SyncEffect) (price : PriceBar) :
    List String × List SyncEffect :=
  match rowCreate price with
  | .ok pid =>
    (acc.1 ++ [pid], acc.2 ++ [.createRow price.ticker price.date.isoformat true])
  | .error _ =>
    (acc.1, acc.2 ++ [.createRow price.ticker price.date.isoformat false])

/-- `NotionClient.create_price_rows` (integrations module): the prices are
chunked by the client's batch size — clamped to at least 1 by
`max(1, batch_size)` in `__init__`, so `chunked` cannot raise here — and
each chunk's rows are submitted, collecting the ids of the successful rows
in order and skipping failures. -/
def create_price_rows (rowCreate : PriceBar → Except PyErr String)
    (batchSize : Nat) (prices : List PriceBar) :
    List String × List SyncEffect :=
  (chunkAux (max 1 batchSize) prices []).foldl
    (fun acc chunk => chunk.foldl (createRowStep rowCreate) acc) ([], [])

/-- The fetch-then-filter prefix of one batch iteration of
`TiingoToNotionPipeline.sync`: bulk-fetch the batch's tickers and filter
each ticker's bars against the record store's existing dates. -/
def batchFiltered (env : SyncEnv) (batch : List String) :
    List (String × List PriceBar) :=
  filter_new_prices env.existing (batch.map (fun t => (t, env.fetch t)))

/-- `if not any(filtered.values())`: the batch is skipped when every
ticker filtered to the empty list. -/
def batchAllEmpty (env : SyncEnv) (batch : List String) : Bool :=
  (batchFiltered env batch).all (fun e => e.2.isEmpty)

/-- One non-skipped batch iteration of `sync`: unless dry-run, submit each
ticker's nonempty filtered bars to `create_price_rows`; always write the
export file; unless dry-run, upload it; record its path. `idx` is the
batch's position, indexing the timestamped path the writer produces. -/
def syncBatch (env : SyncEnv) (dryRun : Bool) (notionBatchSize idx : Nat)
    (batch : List String) : List String × List SyncEffect :=
  if batchAllEmpty env batch then ([], [])
  else
    let createEffs :=
      if dryRun then []
      else
        (batchFiltered env batch).foldl
          (fun acc e =>
            if e.2.isEmpty then acc
            else acc ++ (create_price_rows env.rowCreate notionBatchSize e.2).2)
          []
    let path := env.pathFor idx
    let uploadEffs := if dryRun then [] else [SyncEffect.driveUpload path]
    ([path], createEffs ++ [SyncEffect.fileWrite path] ++ uploadEffs)

/-- The batch loop of `sync`, accumulating uploaded paths and effects. -/
def syncLoop (env : SyncEnv) (dryRun : Bool) (notionBatchSize : Nat) :
    List (List String) → Nat → List String × List SyncEffect
  | [], _ => ([], [])
  | batch :: rest, idx =>
    ((syncBatch env dryRun notionBatchSize idx batch).1 ++
      (syncLoop env dryRun notionBatchSize rest (idx + 1)).1,
     (syncBatch env dryRun notionBatchSize idx batch).2 ++
      (syncLoop env dryRun notionBatchSize rest (idx + 1)).2)

/-- `TiingoToNotionPipeline.sync`: chunk the tickers (a batch size below 1
raises `ValueError` when the generator is first drawn from, before any
network call) and run the batch loop. -/
def TiingoToNotionPipeline.sync (env : SyncEnv) (dryRun : Bool)
    (batchSize notionBatchSize : Nat) (tickers : List String) :
    Except PyErr (List String) × List SyncEffect :=
  match chunked tickers batchSize with
  | .error e => (.error e, [])
  | .ok batches =>
    (.ok (syncLoop env dryRun notionBatchSize batches 0).1,
      (syncLoop env dryRun notionBatchSize batches 0).2)

/-! # Properties of the embedding -/

/-! ## Batching (claim C7) -/

theorem chunkAux_join (size : Nat) :
    ∀ (l batch : List α), (chunkAux size l batch).flatten = batch.reverse ++ l
  | [], batch => by
    cases batch <;> simp [chunkAux]
  | x :: xs, batch => by
    unfold chunkAux
    by_cases h : (x :: batch).length = size
    · rw [if_pos h, List.flatten_cons, chunkAux_join size xs []]
      simp
    · rw [if_neg h, chunkAux_join size xs (x :: batch)]
      simp

theorem chunkAux_lengths (size : Nat) (hsize : 1 ≤ size) :
    ∀ (l batch : List α), batch.length < size →
      ∀ c ∈ chunkAux size l batch, 1 ≤ c.length ∧ c.length ≤ size
  | [], batch => by
    intro hb c hc
    unfold chunkAux at hc
    by_cases h : batch.isEmpty
    · simp [h] at hc
    · rw [if_neg (by simp [h])] at hc
      simp only [Bool.not_eq_true, List.isEmpty_eq_false_iff_exists_mem] at h
      rcases List.mem_singleton.mp hc with rfl
      rcases h with ⟨a, ha⟩
      constructor
      · simpa using List.length_pos_of_mem ha
      · simp only [List.length_reverse]; omega
  | x :: xs, batch => by
    intro hb c hc
    unfold chunkAux at hc
    by_cases h : (x :: batch).length = size
    · rw [if_pos h] at hc
      rcases List.mem_cons.mp hc with rfl | hc
      · simp only [List.length_reverse]; omega
      · exact chunkAux_lengths size hsize xs [] (by simpa using hsize) c hc
    · rw [if_neg h] at hc
      refine chunkAux_lengths size hsize xs (x :: batch) ?_ c hc
      simp only [List.length_cons] at h ⊢
      omega

theorem chunkAux_dropLast_lengths (size : Nat) :
    ∀ (l batch : List α), batch.length < size →
      ∀ c ∈ (chunkAux size l batch).dropLast, c.length = size
  | [], batch => by
    intro hb c hc
    unfold chunkAux at hc
    by_cases h : batch.isEmpty
    · simp [h] at hc
    · rw [if_neg (by simp [h])] at hc
      simp at hc
  | x :: xs, batch => by
    intro hb c hc
    unfold chunkAux at hc
    by_cases h : (x :: batch).length = size
    · rw [if_pos h] at hc
      cases hr : chunkAux size xs ([] : List α) with
      | nil => rw [hr] at hc; simp at hc
      | cons c₀ cs =>
        rw [hr, List.dropLast_cons₂, List.mem_cons] at hc
        rcases hc with rfl | hc
        · simpa using h
        · rw [← hr] at hc
          exact chunkAux_dropLast_lengths size xs []
            (by simp only [List.length_nil]; omega) c hc
    · rw [if_neg h] at hc
      refine chunkAux_dropLast_lengths size xs (x :: batch) ?_ c hc
      simp only [List.length_cons] at h ⊢
      omega

/-- Claim C7: for every finite sequence `S` and every `n ≥ 1`, `chunked S n`
succeeds, concatenating its groups in order reproduces `S` exactly, every
group except possibly the last has length exactly `n`, and every group —
the last included — has length between 1 and `n`. -/
theorem chunked_reassembles (S : List α) (n : Nat) (hn : 1 ≤ n) :
    ∃ cs, chunked S n = .ok cs ∧ cs.flatten = S ∧
      (∀ c ∈ cs.dropLast, c.length = n) ∧
      (∀ c ∈ cs, 1 ≤ c.length ∧ c.length ≤ n) := by
  refine ⟨chunkAux n S [], ?_, ?_, ?_, ?_⟩
  · unfold chunked
    rw [if_neg (by omega)]
  · simpa using chunkAux_join n S []
  · exact chunkAux_dropLast_lengths n S [] (by simpa using hn)
  · exact chunkAux_lengths n hn S [] (by simpa using hn)

/-- Witness for C7 at `S = [1,2,3]`, `n = 2`. -/
theorem chunked_reassembles_witness :
    1 ≤ 2 ∧ ∃ cs, chunked [1, 2, 3] 2 = .ok cs ∧ cs.flatten = [1, 2, 3] ∧
      (∀ c ∈ cs.dropLast, c.length = 2) ∧
      (∀ c ∈ cs, 1 ≤ c.length ∧ c.length ≤ 2) :=
  ⟨by decide, chunked_reassembles [1, 2, 3] 2 (by decide)⟩

/-! ## Filtering (claim C5) -/

/-- Claim C5: for every fetched mapping and record-store answer, the filter
stage produces for each ticker exactly the fetched bars whose ISO date is
absent from that ticker's existing set, preserving their original order
(the result is a sublist of the input). -/
theorem filter_new_prices_spec (existing : String → List String)
    (m : List (String × List PriceBar)) (t : String) (ps : List PriceBar)
    (h : (t, ps) ∈ m) :
    (t, filterTickerPrices (existing t) ps) ∈ filter_new_prices existing m ∧
    (filterTickerPrices (existing t) ps).Sublist ps ∧
    ∀ b, b ∈ filterTickerPrices (existing t) ps ↔
      (b ∈ ps ∧ ¬ (existing t).contains b.date.isoformat) := by
  refine ⟨?_, List.filter_sublist _, ?_⟩
  · exact List.mem_map.mpr ⟨(t, ps), h, rfl⟩
  · intro b
    simp [filterTickerPrices, List.mem_filter]

def barJan1 : PriceBar :=
  { ticker := "AAPL", date := ⟨2024, 1, 1⟩, open_ := 1, close := 2, high := 3,
    low := 1, volume := 100, adj_close := none }

def barJan2 : PriceBar :=
  { ticker := "AAPL", date := ⟨2024, 1, 2⟩, open_ := 1, close := 2, high := 3,
    low := 1, volume := 100, adj_close := none }

/-- Witness for C5, including the claim's concrete instance: with existing
dates `{2024-01-01}` and bars dated 2024-01-01 and 2024-01-02, the filtered
result is exactly the 2024-01-02 bar. -/
theorem filter_new_prices_spec_witness :
    filterTickerPrices ["2024-01-01"] [barJan1, barJan2] = [barJan2] ∧
    (("AAPL", filterTickerPrices ["2024-01-01"] [barJan1, barJan2]) ∈
        filter_new_prices (fun _ => ["2024-01-01"]) [("AAPL", [barJan1, barJan2])] ∧
      (filterTickerPrices ["2024-01-01"] [barJan1, barJan2]).Sublist
        [barJan1, barJan2] ∧
      ∀ b, b ∈ filterTickerPrices ["2024-01-01"] [barJan1, barJan2] ↔
        (b ∈ [barJan1, barJan2] ∧
          ¬ (["2024-01-01"] : List String).contains b.date.isoformat)) :=
  ⟨by decide,
    filter_new_prices_spec (fun _ => ["2024-01-01"])
      [("AAPL", [barJan1, barJan2])] "AAPL" [barJan1, barJan2] (by decide)⟩

/-! ## Sorting of fetched histories (claim C4) -/

/-- Claim C4 (amended): every successfully fetched history is sorted
ascending by date and is a permutation of the parsed payload entries; hence
its dates are pairwise distinct whenever the payload's dates are pairwise
distinct — duplicate payload dates, however, are preserved, not
deduplicated. -/
theorem fetch_price_history_sorted (ticker : String) (payload : List Payload)
    (l : List PriceBar) (h : fetch_price_history ticker payload = .ok l) :
    List.Pairwise dateLeBar l ∧
    ∃ parsed, payload.mapM (PriceBar.from_tiingo_payload ticker) = .ok parsed ∧
      l.Perm parsed ∧
      ((parsed.map PriceBar.date).Nodup → (l.map PriceBar.date).Nodup) := by
  unfold fetch_price_history at h
  cases hm : payload.mapM (PriceBar.from_tiingo_payload ticker) with
  | error e => rw [hm] at h; exact absurd h (by simp [Bind.bind, Except.bind])
  | ok parsed =>
    rw [hm] at h
    simp only [Bind.bind, Except.bind, Except.ok.injEq] at h
    subst h
    refine ⟨List.sorted_insertionSort dateLeBar parsed, parsed, rfl,
      List.perm_insertionSort dateLeBar parsed, ?_⟩
    intro hnd
    exact (((List.perm_insertionSort dateLeBar parsed).map
      PriceBar.date).symm.nodup hnd : _)

def dupDatePayload : Payload := [("date", .dstr ⟨2024, 1, 2⟩)]

def dupDateBar : PriceBar :=
  { ticker := "AAPL", date := ⟨2024, 1, 2⟩, open_ := 0, close := 0, high := 0,
    low := 0, volume := 0, adj_close := none }

/-- Counterexample to C4 as stated: a payload with two entries carrying the
same date — each containing a date field — fetches successfully to a list
whose dates are not pairwise distinct. -/
theorem fetch_price_history_dup_dates :
    fetch_price_history "AAPL" [dupDatePayload, dupDatePayload] =
      .ok [dupDateBar, dupDateBar] ∧
    ¬ (([dupDateBar, dupDateBar]).map PriceBar.date).Nodup :=
  ⟨rfl, by decide⟩

def janZeroBar : PriceBar :=
  { ticker := "AAPL", date := ⟨2024, 1, 1⟩, open_ := 0, close := 0, high := 0,
    low := 0, volume := 0, adj_close := none }

/-- Witness for C4 on a two-element, initially unsorted payload. -/
theorem fetch_price_history_sorted_witness :
    List.Pairwise dateLeBar [janZeroBar, dupDateBar] ∧
    ∃ parsed,
      ([[("date", JVal.dstr ⟨2024, 1, 2⟩)], [("date", JVal.dstr ⟨2024, 1, 1⟩)]]
          : List Payload).mapM (PriceBar.from_tiingo_payload "AAPL") =
        .ok parsed ∧
      List.Perm [janZeroBar, dupDateBar] parsed ∧
      ((parsed.map PriceBar.date).Nodup →
        (([janZeroBar, dupDateBar]).map PriceBar.date).Nodup) :=
  fetch_price_history_sorted "AAPL"
    [[("date", JVal.dstr ⟨2024, 1, 2⟩)], [("date", JVal.dstr ⟨2024, 1, 1⟩)]]
    [janZeroBar, dupDateBar] rfl

/-! ## Payload parsing defaults (claim C10) -/

/-- A stored value a numeric field can be converted from without raising:
the key is absent, or it holds a JSON number. -/
def numOk : Option JVal → Bool
  | none => true
  | some (.num _) => true
  | _ => false

/-- A stored value the `adjClose` field accepts: absent, JSON `null`, or a
JSON number. -/
def adjOk : Option JVal → Bool
  | none => true
  | some .null => true
  | some (.num _) => true
  | _ => false

/-- The value a well-formed numeric field parses to: the stored number, or
the `0.0` default when the key is absent. -/
def numValOr0 (p : Payload) (k : String) : Rat :=
  match p.lookupKey k with
  | some (.num q) => q
  | _ => 0

/-- The value a well-formed `adjClose` field parses to. -/
def adjVal (p : Payload) : Option Rat :=
  match p.lookupKey "adjClose" with
  | some (.num q) => some q
  | _ => none

theorem numField_eq_of_numOk (p : Payload) (k : String)
    (h : numOk (p.lookupKey k) = true) : p.numField k = .ok (numValOr0 p k) := by
  cases hv : p.lookupKey k with
  | none => simp [Payload.numField, numValOr0, hv]
  | some v =>
    cases v with
    | null => rw [hv] at h; exact absurd h (by simp [numOk])
    | num q => simp [Payload.numField, numValOr0, hv]
    | dstr d => rw [hv] at h; exact absurd h (by simp [numOk])

theorem adjCloseField_eq_of_adjOk (p : Payload)
    (h : adjOk (p.lookupKey "adjClose") = true) :
    p.adjCloseField = .ok (adjVal p) := by
  cases hv : p.lookupKey "adjClose" with
  | none => simp [Payload.adjCloseField, adjVal, hv]
  | some v =>
    cases v with
    | null => simp [Payload.adjCloseField, adjVal, hv]
    | num q => simp [Payload.adjCloseField, adjVal, hv]
    | dstr d => rw [hv] at h; exact absurd h (by simp [adjOk])

/-- Claim C10 (amended): when every numeric key is absent or numeric and
`adjClose` is absent, null or numeric, `from_tiingo_payload` succeeds for
any payload whose date field holds a parseable ISO date — absent numeric
fields default to `0.0`, and `adj_close` is `None` exactly when `adjClose`
is absent or null — and raises `ValueError` when the date key is missing
(or holds JSON null, which `payload.get` also reports as missing). A
present-but-null numeric field, by contrast, raises `TypeError` (see the
counterexample), so the unconditional success the claim states does not
hold. -/
theorem from_tiingo_payload_defaults (ticker : String) (payload : Payload)
    (hnum : (["open", "close", "high", "low", "volume"].all
        (fun k => numOk (payload.lookupKey k))) = true)
    (hadj : adjOk (payload.lookupKey "adjClose") = true) :
    (∀ d, payload.lookupKey "date" = some (.dstr d) →
      PriceBar.from_tiingo_payload ticker payload =
        .ok { ticker := ticker, date := d,
              open_ := numValOr0 payload "open",
              close := numValOr0 payload "close",
              high := numValOr0 payload "high",
              low := numValOr0 payload "low",
              volume := numValOr0 payload "volume",
              adj_close := adjVal payload } ∧
      (adjVal payload = none ↔
        (payload.lookupKey "adjClose" = none ∨
          payload.lookupKey "adjClose" = some .null))) ∧
    ((payload.lookupKey "date" = none ∨ payload.lookupKey "date" = some .null) →
      PriceBar.from_tiingo_payload ticker payload = .error .valueError) := by
  simp only [List.all_cons, List.all_nil, Bool.and_eq_true, and_true] at hnum
  obtain ⟨h1, h2, h3, h4, h5⟩ := hnum
  constructor
  · intro d hd
    constructor
    · simp [PriceBar.from_tiingo_payload, hd,
        numField_eq_of_numOk _ _ h1, numField_eq_of_numOk _ _ h2,
        numField_eq_of_numOk _ _ h3, numField_eq_of_numOk _ _ h4,
        numField_eq_of_numOk _ _ h5, adjCloseField_eq_of_adjOk _ hadj,
        Bind.bind, Except.bind]
    · cases hv : payload.lookupKey "adjClose" with
      | none => simp [adjVal, hv]
      | some v =>
        cases v with
        | null => simp [adjVal, hv]
        | num q => simp [adjVal, hv]
        | dstr e => rw [hv] at hadj; exact absurd hadj (by simp [adjOk])
  · intro hd
    rcases hd with hd | hd <;>
      simp [PriceBar.from_tiingo_payload, hd, Bind.bind, Except.bind]

/-- Counterexample to C10 as stated: a payload whose date key holds a
parseable ISO date but whose `open` key is present as JSON `null` — Python
evaluates `float(None)`, raising `TypeError`, so the parse does not
succeed. -/
theorem from_tiingo_payload_null_numeric :
    Payload.lookupKey [("date", JVal.dstr ⟨2024, 1, 2⟩), ("open", JVal.null)]
        "date" = some (JVal.dstr ⟨2024, 1, 2⟩) ∧
    PriceBar.from_tiingo_payload "AAPL"
      [("date", .dstr ⟨2024, 1, 2⟩), ("open", .null)] = .error .typeError :=
  ⟨rfl, rfl⟩

def adjPayload : Payload :=
  [("date", .dstr ⟨2024, 1, 3⟩), ("close", .num 5)]

/-- Witness for C10 at a payload with only a date and a close. -/
theorem from_tiingo_payload_defaults_witness :
    PriceBar.from_tiingo_payload "MSFT" adjPayload =
      .ok { ticker := "MSFT", date := ⟨2024, 1, 3⟩,
            open_ := numValOr0 adjPayload "open",
            close := numValOr0 adjPayload "close",
            high := numValOr0 adjPayload "high",
            low := numValOr0 adjPayload "low",
            volume := numValOr0 adjPayload "volume",
            adj_close := adjVal adjPayload } ∧
    (adjVal adjPayload = none ↔
      (adjPayload.lookupKey "adjClose" = none ∨
        adjPayload.lookupKey "adjClose" = some .null)) :=
  (from_tiingo_payload_defaults "MSFT" adjPayload (by decide) (by decide)).1
    ⟨2024, 1, 3⟩ rfl

/-! ## Bulk fetch failure policy (claim C8) -/

/-- Claim C8: if any ticker's fetch fails, the bulk fetch propagates a
failure instead of returning a mapping; if every fetch succeeds, the
returned mapping's keys are exactly the input tickers (in order, hence as a
set) and each ticker maps to its own fetched list. -/
theorem fetch_price_history_bulk_spec
    (fetch : String → Except PyErr (List PriceBar)) (tickers : List String) :
    ((∃ t ∈ tickers, ∃ e, fetch t = .error e) →
      ∃ e, fetch_price_history_bulk fetch tickers = .error e) ∧
    ((∀ t ∈ tickers, ∃ bars, fetch t = .ok bars) →
      ∃ m, fetch_price_history_bulk fetch tickers = .ok m ∧
        m.map Prod.fst = tickers ∧ ∀ p ∈ m, fetch p.1 = .ok p.2) := by
  induction tickers with
  | nil =>
    refine ⟨fun h => ?_, fun _ => ⟨[], rfl, rfl, by simp⟩⟩
    rcases h with ⟨t, ht, _⟩
    exact absurd ht (by simp)
  | cons t ts ih =>
    constructor
    · rintro ⟨u, hu, e, he⟩
      rcases List.mem_cons.mp hu with rfl | hu
      · exact ⟨e, by simp [fetch_price_history_bulk, he, Bind.bind, Except.bind]⟩
      · cases hf : fetch t with
        | error e' =>
          exact ⟨e', by simp [fetch_price_history_bulk, hf, Bind.bind, Except.bind]⟩
        | ok bars =>
          obtain ⟨e', he'⟩ := ih.1 ⟨u, hu, e, he⟩
          exact ⟨e', by simp [fetch_price_history_bulk, hf, he', Bind.bind, Except.bind]⟩
    · intro h
      obtain ⟨bars, hb⟩ := h t (by simp)
      obtain ⟨m, hm, hkeys, hvals⟩ := ih.2 (fun u hu => h u (by simp [hu]))
      refine ⟨(t, bars) :: m, ?_, by simp [hkeys], ?_⟩
      · simp [fetch_price_history_bulk, hb, hm, Bind.bind, Except.bind]
      · intro p hp
        rcases List.mem_cons.mp hp with rfl | hp
        · exact hb
        · exact hvals p hp

/-- A fetch environment where exactly the ticker `"BAD"` fails. -/
def fetchEnv (t : String) : Except PyErr (List PriceBar) :=
  if t = "BAD" then .error .apiError else .ok [barJan1]

/-- Witness for C8: a batch containing `"BAD"` makes the bulk fetch fail; a
batch of two good tickers yields a mapping keyed exactly by them. -/
theorem fetch_price_history_bulk_spec_witness :
    (∃ e, fetch_price_history_bulk fetchEnv ["AAPL", "BAD"] = .error e) ∧
    (∃ m, fetch_price_history_bulk fetchEnv ["AAPL", "MSFT"] = .ok m ∧
      m.map Prod.fst = ["AAPL", "MSFT"] ∧ ∀ p ∈ m, fetchEnv p.1 = .ok p.2) :=
  ⟨(fetch_price_history_bulk_spec fetchEnv ["AAPL", "BAD"]).1
      ⟨"BAD", by decide, .apiError, rfl⟩,
    (fetch_price_history_bulk_spec fetchEnv ["AAPL", "MSFT"]).2
      (by intro t ht; fin_cases ht <;> exact ⟨[barJan1], rfl⟩)⟩

/-! ## Record-store pagination cap (claim C2) -/

/-- Claim C2 (amended): the clients-module `fetch_existing_dates` issues at
most `max_pages` page requests, but the integrations-module
`query_existing_dates` — the existing-dates query the pipeline actually
uses — keeps requesting pages as long as the API reports more remain: for
every `n`, a server that reports `has_more` on the first `n` responses
receives `n + 1` page requests. -/
theorem pagination_cap (maxPages : Nat) :
    (∀ responses hasMore pages seen dates n,
      pages ≤ maxPages →
      fetch_existing_dates_loop maxPages responses hasMore pages seen =
        some (dates, n) →
      n ≤ maxPages) ∧
    (∀ n, query_existing_dates
        (List.replicate n ⟨[], true⟩ ++ [⟨[], false⟩]) = some ([], n + 1)) := by
  constructor
  · intro responses
    induction responses with
    | nil =>
      intro hasMore pages seen dates n hp h
      unfold fetch_existing_dates_loop at h
      by_cases hc : hasMore = true ∧ pages < maxPages
      · rw [if_pos hc] at h; exact absurd h (by simp)
      · rw [if_neg hc] at h
        simp only [Option.some.injEq, Prod.mk.injEq] at h
        omega
    | cons r rest ih =>
      intro hasMore pages seen dates n hp h
      unfold fetch_existing_dates_loop at h
      by_cases hc : hasMore = true ∧ pages < maxPages
      · rw [if_pos hc] at h
        exact ih r.has_more (pages + 1) (addPageDates seen r.results) dates n
          (by omega) h
      · rw [if_neg hc] at h
        simp only [Option.some.injEq, Prod.mk.injEq] at h
        omega
  · intro n
    suffices h : ∀ (n : Nat) (seen : List String),
        query_existing_dates_loop
          (List.replicate n ⟨[], true⟩ ++ [⟨[], false⟩]) seen =
          some (addPageDates seen [], n + 1) by
      simpa [query_existing_dates, addPageDates] using h n []
    intro m
    induction m with
    | zero => intro seen; simp [query_existing_dates_loop]
    | succ k ihk =>
      intro seen
      simp only [List.replicate_succ, List.cons_append, query_existing_dates_loop,
        List.append_eq, if_true]
      rw [ihk (addPageDates seen [])]
      simp [addPageDates]

/-- The responses of a server holding six pages, reporting more pages
remain on each of the first five. -/
def sixPages : List NotionQueryResponse :=
  [⟨[some "2024-01-01"], true⟩, ⟨[some "2024-01-02"], true⟩,
   ⟨[some "2024-01-03"], true⟩, ⟨[some "2024-01-04"], true⟩,
   ⟨[some "2024-01-05"], true⟩, ⟨[some "2024-01-06"], false⟩]

/-- Counterexample to C2 as stated: against `sixPages`, the pipeline's
existing-dates query issues 6 page requests, exceeding the only configured
page cap in the repository (`max_pages = 4`), under which the
clients-module loop would have stopped at 4 requests. -/
theorem query_existing_dates_uncapped :
    query_existing_dates sixPages =
      some (["2024-01-01", "2024-01-02", "2024-01-03", "2024-01-04",
             "2024-01-05", "2024-01-06"], 6) ∧
    fetch_existing_dates defaultMaxPages sixPages =
      some (["2024-01-01", "2024-01-02", "2024-01-03", "2024-01-04"], 4) ∧
    ¬ (6 ≤ defaultMaxPages) :=
  ⟨rfl, rfl, by decide⟩

/-- Witness for C2's amended statement: the capped loop returning after 4
requests indeed respects the bound, and a 3-page always-more server gets
exactly 3 + 1 requests from the uncapped loop. -/
theorem pagination_cap_witness :
    4 ≤ defaultMaxPages ∧
    query_existing_dates
      (List.replicate 3 ⟨[], true⟩ ++ [⟨[], false⟩]) = some ([], 4) :=
  ⟨(pagination_cap defaultMaxPages).1 sixPages true 0 []
      ["2024-01-01", "2024-01-02", "2024-01-03", "2024-01-04"] 4
      (by decide) rfl,
    (pagination_cap defaultMaxPages).2 3⟩

/-! ## Object-storage upload validation (claim C3) -/

/-- Claim C3 (amended): the integrations-module `upload_json` fails — with
`RuntimeError` for an empty folder identifier, `FileNotFoundError` for a
missing local file — before performing any storage action; the
clients-module `GoogleDriveClient.upload_json`, the operation the pipeline
actually invokes, performs no such validation (see the counterexample). -/
theorem integrations_upload_json_validates (env : DriveEnv)
    (filePath folderId : String)
    (h : folderId = "" ∨ env.fileExists filePath = false) :
    (∃ e, (GoogleDriveIntegration.upload_json env filePath folderId).1 =
      .error e) ∧
    (GoogleDriveIntegration.upload_json env filePath folderId).2 = [] := by
  by_cases hf : folderId = ""
  · constructor
    · exact ⟨.runtimeError, by simp [GoogleDriveIntegration.upload_json, hf]⟩
    · simp [GoogleDriveIntegration.upload_json, hf]
  · have hex : env.fileExists filePath = false := h.resolve_left hf
    constructor
    · exact ⟨.fileNotFoundError,
        by simp [GoogleDriveIntegration.upload_json, hf, hex]⟩
    · simp [GoogleDriveIntegration.upload_json, hf, hex]

/-- A Drive environment where every local file exists and no object with
the same name is found in the destination folder. -/
def driveEnvAllFiles : DriveEnv :=
  { fileExists := fun _ => true, existingFileId := fun _ _ => none,
    uploadedId := "file-id-1" }

/-- Counterexample to C3 as stated: with an empty destination folder
identifier and an existing local file, the clients-module upload that the
pipeline uses does not fail — it opens the file and issues the create
request with `parents = [""]`, returning success. -/
theorem drive_client_upload_json_no_validation :
    DriveClient.upload_json driveEnvAllFiles "" "export.json" =
      (.ok "file-id-1",
        [.openFile "export.json", .createObject "export.json" [""]]) := rfl

/-- A Drive environment whose local filesystem is empty. -/
def driveEnvNoFiles : DriveEnv :=
  { fileExists := fun _ => false, existingFileId := fun _ _ => none,
    uploadedId := "file-id-1" }

/-- Witness for C3's amended statement at both failing configurations. -/
theorem integrations_upload_json_validates_witness :
    ((∃ e, (GoogleDriveIntegration.upload_json driveEnvAllFiles
        "export.json" "").1 = .error e) ∧
      (GoogleDriveIntegration.upload_json driveEnvAllFiles
        "export.json" "").2 = []) ∧
    ((∃ e, (GoogleDriveIntegration.upload_json driveEnvNoFiles
        "export.json" "folder-1").1 = .error e) ∧
      (GoogleDriveIntegration.upload_json driveEnvNoFiles
        "export.json" "folder-1").2 = []) :=
  ⟨integrations_upload_json_validates driveEnvAllFiles "export.json" ""
      (Or.inl rfl),
    integrations_upload_json_validates driveEnvNoFiles "export.json" "folder-1"
      (Or.inr rfl)⟩

/-! ## Thread-local session isolation (claim C9) -/

/-- States reachable by the provider: stored ids are below the allocation
counter and no two threads store the same id. -/
def ProviderInv (s : ProviderState) : Prop :=
  (∀ t sid, s.perThread t = some sid → sid < s.nextId) ∧
  (∀ t₁ t₂ sid₁ sid₂, s.perThread t₁ = some sid₁ → s.perThread t₂ = some sid₂ →
    sid₁ = sid₂ → t₁ = t₂)

theorem providerGet_inv {s : ProviderState} (hs : ProviderInv s) (tid : Nat) :
    ProviderInv (providerGet s tid).2 ∧
    (providerGet s tid).2.perThread tid = some (providerGet s tid).1 ∧
    (∀ t sid, s.perThread t = some sid →
      (providerGet s tid).2.perThread t = some sid) ∧
    (∀ t, s.perThread t = none → t ≠ tid →
      (providerGet s tid).2.perThread t = none) := by
  obtain ⟨hbound, hinj⟩ := hs
  cases hv : s.perThread tid with
  | some sid =>
    have hg : providerGet s tid = (sid, s) := by
      unfold providerGet ProviderState.stored
      rw [hv]
    rw [hg]
    exact ⟨⟨hbound, hinj⟩, hv, fun t sid h => h, fun t h _ => h⟩
  | none =>
    have hg : providerGet s tid =
        (s.nextId,
          ⟨fun t => if t = tid then some s.nextId else s.perThread t,
            s.nextId + 1⟩) := by
      unfold providerGet ProviderState.stored
      rw [hv]
    rw [hg]
    dsimp only
    refine ⟨⟨?_, ?_⟩, by simp, ?_, ?_⟩
    · intro t sid h
      dsimp only at h ⊢
      by_cases ht : t = tid
      · rw [if_pos ht] at h
        simp only [Option.some.injEq] at h
        omega
      · rw [if_neg ht] at h
        have := hbound t sid h
        omega
    · intro t₁ t₂ sid₁ sid₂ h₁ h₂ hsid
      dsimp only at h₁ h₂
      by_cases ht₁ : t₁ = tid <;> by_cases ht₂ : t₂ = tid
      · rw [ht₁, ht₂]
      · rw [if_pos ht₁] at h₁
        rw [if_neg ht₂] at h₂
        simp only [Option.some.injEq] at h₁
        have := hbound t₂ sid₂ h₂
        omega
      · rw [if_neg ht₁] at h₁
        rw [if_pos ht₂] at h₂
        simp only [Option.some.injEq] at h₂
        have := hbound t₁ sid₁ h₁
        omega
      · rw [if_neg ht₁] at h₁
        rw [if_neg ht₂] at h₂
        exact hinj t₁ t₂ sid₁ sid₂ h₁ h₂ hsid
    · intro t sid h
      by_cases ht : t = tid
      · rw [ht, hv] at h
        cases h
      · rw [if_neg ht]
        exact h
    · intro t h ht
      rw [if_neg ht]
      exact h

theorem runProvider_spec (trace : List Nat) :
    ∀ (s : ProviderState), ProviderInv s →
      ProviderInv (runProvider s trace).2 ∧
      (∀ o ∈ (runProvider s trace).1,
        (runProvider s trace).2.perThread o.1 = some o.2) ∧
      (∀ t sid, s.perThread t = some sid →
        (runProvider s trace).2.perThread t = some sid) ∧
      (∀ t, s.perThread t = none → t ∉ trace →
        (runProvider s trace).2.perThread t = none) := by
  induction trace with
  | nil => exact fun s hs => ⟨hs, by simp [runProvider], fun _ _ h => h,
      fun _ h _ => h⟩
  | cons tid rest ih =>
    intro s hs
    obtain ⟨hinv', hstored, hmono, hnone⟩ := providerGet_inv hs tid
    obtain ⟨hinvF, houts, hmonoF, hnoneF⟩ := ih (providerGet s tid).2 hinv'
    simp only [runProvider]
    refine ⟨hinvF, ?_, ?_, ?_⟩
    · intro o ho
      rcases List.mem_cons.mp ho with rfl | ho
      · exact hmonoF tid (providerGet s tid).1 hstored
      · exact houts o ho
    · intro t sid h
      exact hmonoF t sid (hmono t sid h)
    · intro t h ht
      have ht1 : t ≠ tid := fun he => ht (he ▸ List.mem_cons_self tid rest)
      have ht2 : t ∉ rest := fun he => ht (List.mem_cons_of_mem tid he)
      exact hnoneF t (hnone t h ht1) ht2

/-- Claim C9: over any trace of `get()` calls from the provider's initial
state, every two calls by the same thread return the same session, two
calls by different threads never return the same session, and a session
exists for a thread only if that thread called `get()` (lazy creation on
first use). -/
theorem thread_local_session_isolation (trace : List Nat) (o₁ o₂ : Nat × Nat)
    (h₁ : o₁ ∈ (runProvider ProviderState.init trace).1)
    (h₂ : o₂ ∈ (runProvider ProviderState.init trace).1) :
    (o₁.1 = o₂.1 → o₁.2 = o₂.2) ∧ (o₁.1 ≠ o₂.1 → o₁.2 ≠ o₂.2) ∧
    (∀ tid, tid ∉ trace →
      (runProvider ProviderState.init trace).2.perThread tid = none) := by
  have hinit : ProviderInv ProviderState.init := by
    constructor
    · intro t sid h
      simp [ProviderState.init] at h
    · intro t₁ t₂ sid₁ sid₂ ha hb hc
      simp [ProviderState.init] at ha
  obtain ⟨hinv, houts, _, hnone⟩ := runProvider_spec trace ProviderState.init hinit
  have e₁ := houts o₁ h₁
  have e₂ := houts o₂ h₂
  refine ⟨?_, ?_, fun tid ht => hnone tid rfl ht⟩
  · intro heq
    rw [heq] at e₁
    rw [e₁] at e₂
    exact Option.some.inj e₂
  · intro hne hsid
    exact hne (hinv.2 o₁.1 o₂.1 o₁.2 o₂.2 e₁ e₂ hsid)

/-- Witness for C9 on the trace `[0, 1, 0]`: thread 0's two calls return
session 0 both times, and thread 1's call returns the distinct session 1. -/
theorem thread_local_session_isolation_witness :
    (((0, 0) : Nat × Nat).1 = ((1, 1) : Nat × Nat).1 →
      ((0, 0) : Nat × Nat).2 = ((1, 1) : Nat × Nat).2) ∧
    (((0, 0) : Nat × Nat).1 ≠ ((1, 1) : Nat × Nat).1 →
      ((0, 0) : Nat × Nat).2 ≠ ((1, 1) : Nat × Nat).2) ∧
    (∀ tid, tid ∉ ([0, 1, 0] : List Nat) →
      (runProvider ProviderState.init [0, 1, 0]).2.perThread tid = none) :=
  thread_local_session_isolation [0, 1, 0] (0, 0) (1, 1) (by decide) (by decide)

/-! ## Row-creation failure handling in `sync` (claim C1) -/

theorem foldl_inner_flatten (f : β → α → β) :
    ∀ (L : List (List α)) (b : β),
      L.foldl (fun acc chunk => chunk.foldl f acc) b = L.flatten.foldl f b := by
  intro L
  induction L with
  | nil => intro b; rfl
  | cons c cs ih =>
    intro b
    simp [List.flatten_cons, List.foldl_append, ih]

/-- The id a row submission contributes: the created page's id, or nothing
for a failed row. -/
def okId : Except PyErr String → Option String
  | .ok s => some s
  | .error _ => none

/-- The ids of the rows whose submission succeeded, in order. -/
def successIds (rowCreate : PriceBar → Except PyErr String)
    (prices : List PriceBar) : List String :=
  prices.filterMap (fun p => okId (rowCreate p))

/-- The submission-attempt effects of a row batch: one per row, marked with
its outcome. -/
def rowEffects (rowCreate : PriceBar → Except PyErr String)
    (prices : List PriceBar) : List SyncEffect :=
  prices.map
    (fun p => .createRow p.ticker p.date.isoformat (okId (rowCreate p)).isSome)

theorem foldl_createRowStep (rowCreate : PriceBar → Except PyErr String) :
    ∀ (prices : List PriceBar) (ids : List String) (effs : List SyncEffect),
      prices.foldl (createRowStep rowCreate) (ids, effs) =
        (ids ++ successIds rowCreate prices, effs ++ rowEffects rowCreate prices) := by
  intro prices
  induction prices with
  | nil => intro ids effs; simp [successIds, rowEffects]
  | cons p ps ih =>
    intro ids effs
    cases hr : rowCreate p with
    | ok pid =>
      simp [List.foldl_cons, createRowStep, hr, ih, successIds, rowEffects, okId]
    | error e =>
      simp [List.foldl_cons, createRowStep, hr, ih, successIds, rowEffects, okId]

theorem create_price_rows_eq (rowCreate : PriceBar → Except PyErr String)
    (batchSize : Nat) (prices : List PriceBar) :
    create_price_rows rowCreate batchSize prices =
      (successIds rowCreate prices, rowEffects rowCreate prices) := by
  unfold create_price_rows
  rw [foldl_inner_flatten (createRowStep rowCreate),
    show (chunkAux (max 1 batchSize) prices []).flatten = prices from by
      simpa using chunkAux_join (max 1 batchSize) prices []]
  simpa using foldl_createRowStep rowCreate prices [] []

/-- Claim C1 (amended): a row-creation failure does not make the run raise —
`create_price_rows` resolves each row through `gather(...,
return_exceptions=True)`, logs and skips failures, and returns only the ids
of the successful rows; `sync` therefore completes with an `ok` result for
any batch size ≥ 1 whatever the per-row outcomes are. Only an exception
raised by the `create_price_rows` call itself would propagate. -/
theorem sync_swallows_row_failures (env : SyncEnv)
    (batchSize notionBatchSize : Nat) (tickers : List String)
    (h : 1 ≤ batchSize) :
    (∃ paths, (TiingoToNotionPipeline.sync env false batchSize notionBatchSize
        tickers).1 = .ok paths) ∧
    ∀ prices, (create_price_rows env.rowCreate notionBatchSize prices).1 =
      successIds env.rowCreate prices := by
  constructor
  · refine ⟨(syncLoop env false notionBatchSize
      (chunkAux batchSize tickers []) 0).1, ?_⟩
    unfold TiingoToNotionPipeline.sync chunked
    rw [if_neg (by omega)]
  · intro prices
    rw [create_price_rows_eq]

/-- An environment where every row submission to the record store fails. -/
def rowFailEnv : SyncEnv :=
  { fetch := fun _ => [barJan2], existing := fun _ => [],
    rowCreate := fun _ => .error .apiError,
    pathFor := fun i => "export" ++ toString i }

/-- Counterexample to C1 as stated: with every row submission failing, the
batch does not make the run raise — `sync` returns `ok` with the export
written and uploaded, the failure surfacing only as a logged, skipped row
attempt. -/
theorem sync_completes_despite_row_failure :
    TiingoToNotionPipeline.sync rowFailEnv false 10 10 ["AAPL"] =
      (.ok ["export0"],
        [.createRow "AAPL" "2024-01-02" false, .fileWrite "export0",
         .driveUpload "export0"]) := rfl

/-- Witness for C1's amended statement. -/
theorem sync_swallows_row_failures_witness :
    (∃ paths, (TiingoToNotionPipeline.sync rowFailEnv false 10 10
        ["MSFT"]).1 = .ok paths) ∧
    ∀ prices, (create_price_rows rowFailEnv.rowCreate 10 prices).1 =
      successIds rowFailEnv.rowCreate prices :=
  sync_swallows_row_failures rowFailEnv 10 10 ["MSFT"] (by decide)

/-! ## Dry-run behaviour of `sync` (claim C6) -/

theorem syncLoop_dry (env : SyncEnv) (nbs : Nat) :
    ∀ (batches : List (List String)) (idx : Nat),
      (∀ e ∈ (syncLoop env true nbs batches idx).2, ∃ p, e = .fileWrite p) ∧
      (∀ j batch, batches[j]? = some batch →
        batchAllEmpty env batch = false →
        SyncEffect.fileWrite (env.pathFor (idx + j)) ∈
          (syncLoop env true nbs batches idx).2 ∧
        env.pathFor (idx + j) ∈ (syncLoop env true nbs batches idx).1) := by
  intro batches
  induction batches with
  | nil =>
    intro idx
    constructor
    · intro e he
      simp [syncLoop] at he
    · intro j batch hj
      simp at hj
  | cons b bs ih =>
    intro idx
    have ihx := ih (idx + 1)
    by_cases hb : batchAllEmpty env b = true
    · have hsb : syncBatch env true nbs idx b = ([], []) := by
        unfold syncBatch
        rw [if_pos hb]
      constructor
      · intro e he
        apply ihx.1
        simpa [syncLoop, hsb] using he
      · intro j batch hj hne
        cases j with
        | zero =>
          have hbb : b = batch := by simpa using hj
          rw [← hbb, hb] at hne
          cases hne
        | succ k =>
          have hk := ihx.2 k batch (by simpa using hj) hne
          have harith : idx + 1 + k = idx + (k + 1) := by omega
          rw [harith] at hk
          constructor
          · simpa [syncLoop, hsb] using hk.1
          · simpa [syncLoop, hsb] using hk.2
    · have hsb : syncBatch env true nbs idx b =
          ([env.pathFor idx], [SyncEffect.fileWrite (env.pathFor idx)]) := by
        unfold syncBatch
        rw [if_neg hb]
        rfl
      constructor
      · intro e he
        simp only [syncLoop, hsb, List.mem_append] at he
        rcases he with he | he
        · exact ⟨env.pathFor idx, by simpa using he⟩
        · exact ihx.1 e he
      · intro j batch hj hne
        cases j with
        | zero =>
          constructor
          · simp [syncLoop, hsb]
          · simp [syncLoop, hsb]
        | succ k =>
          have hk := ihx.2 k batch (by simpa using hj) hne
          have harith : idx + 1 + k = idx + (k + 1) := by omega
          rw [harith] at hk
          constructor
          · simp only [syncLoop, hsb, List.mem_append]
            exact Or.inr hk.1
          · simp only [syncLoop, hsb, List.mem_append]
            exact Or.inr hk.2

/-- Claim C6: in a dry run, no record-store create and no storage upload is
ever invoked — every effect of the run is a file write — while every batch
with at least one filtered bar still gets its export file written and its
path recorded in the returned result. -/
theorem sync_dry_run (env : SyncEnv) (batchSize notionBatchSize : Nat)
    (tickers : List String) (h : 1 ≤ batchSize) :
    ∃ paths,
      (TiingoToNotionPipeline.sync env true batchSize notionBatchSize
        tickers).1 = .ok paths ∧
      (∀ e ∈ (TiingoToNotionPipeline.sync env true batchSize notionBatchSize
          tickers).2, ∃ p, e = SyncEffect.fileWrite p) ∧
      (∀ j batch, (chunkAux batchSize tickers [])[j]? = some batch →
        batchAllEmpty env batch = false →
        SyncEffect.fileWrite (env.pathFor j) ∈
          (TiingoToNotionPipeline.sync env true batchSize notionBatchSize
            tickers).2 ∧
        env.pathFor j ∈ paths) := by
  have hs : TiingoToNotionPipeline.sync env true batchSize notionBatchSize
      tickers =
      (.ok (syncLoop env true notionBatchSize
          (chunkAux batchSize tickers []) 0).1,
        (syncLoop env true notionBatchSize
          (chunkAux batchSize tickers []) 0).2) := by
    unfold TiingoToNotionPipeline.sync chunked
    rw [if_neg (by omega)]
  obtain ⟨hall, hbatches⟩ :=
    syncLoop_dry env notionBatchSize (chunkAux batchSize tickers []) 0
  refine ⟨_, by rw [hs], ?_, ?_⟩
  · rw [hs]
    exact hall
  · intro j batch hj hne
    have hk := hbatches j batch hj hne
    rw [Nat.zero_add] at hk
    rw [hs]
    exact hk

/-- An environment observing a dry run: one bar fetched per ticker, nothing
yet in the record store. -/
def dryEnv : SyncEnv :=
  { fetch := fun _ => [barJan1], existing := fun _ => [],
    rowCreate := fun _ => .ok "page-1",
    pathFor := fun i => "export" ++ toString i }

/-- Witness for C6 on a two-batch dry run. -/
theorem sync_dry_run_witness :
    ∃ paths,
      (TiingoToNotionPipeline.sync dryEnv true 2 10
        ["AAPL", "MSFT", "GOOG"]).1 = .ok paths ∧
      (∀ e ∈ (TiingoToNotionPipeline.sync dryEnv true 2 10
          ["AAPL", "MSFT", "GOOG"]).2, ∃ p, e = SyncEffect.fileWrite p) ∧
      (∀ j batch, (chunkAux 2 ["AAPL", "MSFT", "GOOG"] [])[j]? = some batch →
        batchAllEmpty dryEnv batch = false →
        SyncEffect.fileWrite (dryEnv.pathFor j) ∈
          (TiingoToNotionPipeline.sync dryEnv true 2 10
            ["AAPL", "MSFT", "GOOG"]).2 ∧
        dryEnv.pathFor j ∈ paths) :=
  sync_dry_run dryEnv 2 10 ["AAPL", "MSFT", "GOOG"] (by decide)
